import Mathlib

/-!
Verification development for the FDBMS reporting subsystem
(`src/components/Reports.tsx`): filter-predicate composition, the
grouping/reduction summary builders, statement generation and CSV export.

Embedding conventions:
* JavaScript numbers are modelled as exact rationals (`ℚ`); ids and counts
  as `ℕ`.  Optional numeric references (`contract_id`, `contractor_id`)
  are `Option ℕ`; the JavaScript falsy test `!x` on such a field holds
  exactly when the field is `none` or `some 0`.
* `CalculatedDeductions` is modelled as a total record of the eight
  numeric categories plus the optional `others_description` string; the
  source's `Object.keys(bill.deductions)` loop over a fully-populated
  deductions object is modelled as the explicit eight-field sum with the
  `others_description` key excluded, mirroring the `key !==
  'others_description'` guard.
* `Array.prototype.sort(cmp)` is stable (ES2019); for a consistent
  comparator the sorted result is uniquely determined, so it is modelled
  by the stable `List.insertionSort`.  The bill comparator
  `new Date(b.bill_date).getTime() - new Date(a.bill_date).getTime()`
  agrees with reverse lexicographic order on canonical `YYYY-MM-DD` date
  strings, which is how the spec (§4.1) describes date comparison, so the
  sort relation is `b.bill_date ≤ a.bill_date` on strings; likewise
  `localeCompare` on `YYYY-MM` month keys is codepoint comparison.
* `new Date(s)` / epoch-millisecond comparison in the audit filter is
  modelled by an explicit parser for canonical ISO-8601 UTC strings
  (`YYYY-MM-DD`, `YYYY-MM-DDTHH:MM:SSZ`, `YYYY-MM-DDTHH:MM:SS.sssZ`),
  returning `none` (JavaScript `NaN`, all comparisons false) otherwise.
* `JS Map` is modelled as an association list with insert-at-end /
  update-in-place semantics, matching `Map`'s insertion-order iteration;
  `Set<string>` as a duplicate-free insertion-ordered list.
-/

namespace Fdbms

/-- One priced leg of a bill (`BillItem` in `types.ts`, as used by
`Reports.tsx`).  The source fields `from`/`to` are renamed
`fromStation`/`toStation` (`from` is a Lean keyword). -/
structure BillItem where
  id : String
  contract_id : Option Nat
  fromStation : String
  toStation : String
  mode : String
  bags : Nat
  ppBags : Nat
  juteBags : Nat
  netKgs : ℚ
  bardanaKgs : ℚ
  grossKgs : ℚ
  rate_per_kg : ℚ
  rs : ℚ
  deriving DecidableEq, Repr

/-- The fixed set of named numeric deduction categories plus the free-form
"others" amount and its optional description. -/
structure CalculatedDeductions where
  penalty : ℚ
  income_tax : ℚ
  tajveed_ul_quran : ℚ
  education_cess : ℚ
  klc : ℚ
  sd_current : ℚ
  gst_current : ℚ
  others : ℚ
  others_description : Option String
  deriving DecidableEq, Repr

/-- A saved bill record as consumed by the reporting engine. -/
structure SavedBill where
  id : String
  bill_number : String
  bill_date : String
  contractor_id : Option Nat
  contractor_name : String
  sanctioned_no : String
  bill_items : List BillItem
  deductions : CalculatedDeductions
  grandTotal : ℚ
  totalDeductions : ℚ
  netAmount : ℚ
  deriving DecidableEq, Repr

/-- A transport contract: contractor plus route. -/
structure Contract where
  contract_id : Nat
  contractor_id : Nat
  contractor_name : String
  from_location : String
  to_location : String
  deriving DecidableEq, Repr

/-- A contractor master record. -/
structure Contractor where
  id : Nat
  name : String
  deriving DecidableEq, Repr

/-- An audit-log entry; `details` is the open key-value payload. -/
structure AuditLog where
  id : String
  timestamp : String
  userId : Nat
  username : String
  action : String
  details : List (String × String)
  deriving DecidableEq, Repr

/-- The contractor selector of the filter bar: the literal `"all"` option
or a specific contractor id (the `<option value={c.id}>` string, read back
through `Number(selectedContractorId)`). -/
inductive ContractorSel where
  | all : ContractorSel
  | id (n : Nat) : ContractorSel
  deriving DecidableEq, Repr

/-- The route selector: `"all"` or an exact `"{from} -> {to}"` string. -/
inductive RouteSel where
  | all : RouteSel
  | route (r : String) : RouteSel
  deriving DecidableEq, Repr

/-- The filter state held by the `Reports` component: contractor and route
selectors, free-text search, inclusive date bounds (empty string = unset)
and the audit action selector. -/
structure FilterState where
  selectedContractorId : ContractorSel
  selectedRoute : RouteSel
  searchQuery : String
  startDate : String
  endDate : String
  auditActionFilter : String
  deriving DecidableEq, Repr

/-- JavaScript truthiness of an optional numeric id: `!x` is true exactly
for `undefined` and `0`. -/
def jsTruthy : Option Nat → Bool
  | none => false
  | some n => decide (n ≠ 0)

/-- `String.prototype.toLowerCase`, character by character. -/
def lowerStr (s : String) : String := ⟨s.data.map Char.toLower⟩

/-- Does `pat` occur as a contiguous sublist of `l`?
(`String.prototype.includes` on the underlying character lists.) -/
def containsSub (pat : List Char) : List Char → Bool
  | [] => pat.isEmpty
  | c :: rest => pat.isPrefixOf (c :: rest) || containsSub pat rest

/-- `haystack.includes(needle)` for strings. -/
def strIncludes (haystack needle : String) : Bool :=
  containsSub needle.data haystack.data

/-- The route string `"${c.from_location} -> ${c.to_location}"`. -/
def routeStr (c : Contract) : String :=
  c.from_location ++ " -> " ++ c.to_location

/-- The `contractorMatch` criterion: `"all"` passes everything, a
specific selector requires `bill.contractor_id === Number(sel)`. -/
def contractorMatch (sel : ContractorSel) (bill : SavedBill) : Bool :=
  match sel with
  | .all => true
  | .id n => decide (bill.contractor_id = some n)

/-- The `searchMatch` criterion: empty query passes, otherwise
case-insensitive substring match against the bill number. -/
def searchMatch (q : String) (bill : SavedBill) : Bool :=
  decide (q = "") || strIncludes (lowerStr bill.bill_number) (lowerStr q)

/-- The `dateMatch` criterion: unset bounds pass, set bounds compare the
`YYYY-MM-DD` strings lexicographically, both ends inclusive. -/
def dateMatch (sd ed : String) (bill : SavedBill) : Bool :=
  (decide (sd = "") || decide (sd ≤ bill.bill_date)) &&
    (decide (ed = "") || decide (bill.bill_date ≤ ed))

/-- The `routeMatch` criterion: `"all"` passes, otherwise some item's
contract must format to the selected route string. -/
def routeMatch (contracts : List Contract) (sel : RouteSel) (bill : SavedBill) : Bool :=
  match sel with
  | .all => true
  | .route r =>
      bill.bill_items.any fun item =>
        match item.contract_id with
        | none => false
        | some cid =>
            match contracts.find? (fun c => c.contract_id == cid) with
            | none => false
            | some c => decide (routeStr c = r)

/-- The bill filter predicate of `filteredBills` (Reports.tsx 67-78):
contractor, search, date and route criteria combined with `&&`. -/
def billPred (contracts : List Contract) (f : FilterState) (bill : SavedBill) : Bool :=
  contractorMatch f.selectedContractorId bill && searchMatch f.searchQuery bill &&
    dateMatch f.startDate f.endDate bill && routeMatch contracts f.selectedRoute bill

/-- Sort relation of the bill list: most recent bill date first
(the comparator `new Date(b.bill_date) - new Date(a.bill_date)`,
which on canonical `YYYY-MM-DD` strings is reverse lexicographic). -/
def billDateDesc (a b : SavedBill) : Prop := b.bill_date ≤ a.bill_date

instance : DecidableRel billDateDesc := fun a b =>
  inferInstanceAs (Decidable (b.bill_date ≤ a.bill_date))

instance : IsTotal SavedBill billDateDesc :=
  ⟨fun a b => le_total b.bill_date a.bill_date⟩

instance : IsTrans SavedBill billDateDesc :=
  ⟨fun _ _ _ hab hbc => le_trans hbc hab⟩

/-- `filteredBills` (Reports.tsx 65-81): filter then sort by bill date
descending. -/
def filteredBills (savedBills : List SavedBill) (contracts : List Contract)
    (f : FilterState) : List SavedBill :=
  List.insertionSort billDateDesc (savedBills.filter (billPred contracts f))

/-! ### ISO date parsing for the audit filter -/

/-- Days between 1970-01-01 and the given civil date
(proleptic Gregorian; Howard Hinnant's `days_from_civil`, with floor
division). -/
def civilDays (y m d : Int) : Int :=
  let y2 : Int := if m ≤ 2 then y - 1 else y
  let era : Int := Int.fdiv y2 400
  let yoe : Int := y2 - era * 400
  let mp : Int := Int.fmod (m + 9) 12
  let doy : Int := Int.fdiv (153 * mp + 2) 5 + d - 1
  let doe : Int := yoe * 365 + Int.fdiv yoe 4 - Int.fdiv yoe 100 + doy
  era * 146097 + doe - 719468

/-- Epoch milliseconds of a UTC civil date-time. -/
def epochMillis (y m d h mi s ms : Int) : Int :=
  civilDays y m d * 86400000 + h * 3600000 + mi * 60000 + s * 1000 + ms

/-- Numeric value of a decimal digit character. -/
def digit? (c : Char) : Option Nat :=
  if c.isDigit then some (c.toNat - 48) else none

/-- Two-digit decimal number. -/
def num2 (a b : Char) : Option Nat := do
  let x ← digit? a
  let y ← digit? b
  pure (10 * x + y)

/-- Three-digit decimal number. -/
def num3 (a b c : Char) : Option Nat := do
  let x ← digit? a
  let y ← digit? b
  let z ← digit? c
  pure (100 * x + 10 * y + z)

/-- Four-digit decimal number. -/
def num4 (a b c d : Char) : Option Nat := do
  let x ← digit? a
  let y ← digit? b
  let z ← digit? c
  let w ← digit? d
  pure (1000 * x + 100 * y + 10 * z + w)

/-- Validate field ranges and build the epoch-millisecond value. -/
def mkMillis (y mo da h mi se ms : Nat) : Option Int := do
  guard (1 ≤ mo ∧ mo ≤ 12)
  guard (1 ≤ da ∧ da ≤ 31)
  guard (h ≤ 23)
  guard (mi ≤ 59)
  guard (se ≤ 59)
  pure (epochMillis y mo da h mi se ms)

/-- `new Date(s).getTime()` for the canonical ISO-8601 UTC forms produced
by the system (`YYYY-MM-DD` = UTC midnight, `YYYY-MM-DDTHH:MM:SSZ`,
`YYYY-MM-DDTHH:MM:SS.sssZ`); any other string is an invalid date
(`NaN`, modelled as `none`). -/
def parseISO? (s : String) : Option Int :=
  match s.data with
  | [y1, y2, y3, y4, '-', a1, a2, '-', b1, b2] => do
      let y ← num4 y1 y2 y3 y4
      let mo ← num2 a1 a2
      let da ← num2 b1 b2
      mkMillis y mo da 0 0 0 0
  | [y1, y2, y3, y4, '-', a1, a2, '-', b1, b2, 'T',
     h1, h2, ':', i1, i2, ':', s1, s2, 'Z'] => do
      let y ← num4 y1 y2 y3 y4
      let mo ← num2 a1 a2
      let da ← num2 b1 b2
      let h ← num2 h1 h2
      let mi ← num2 i1 i2
      let se ← num2 s1 s2
      mkMillis y mo da h mi se 0
  | [y1, y2, y3, y4, '-', a1, a2, '-', b1, b2, 'T',
     h1, h2, ':', i1, i2, ':', s1, s2, '.', m1, m2, m3, 'Z'] => do
      let y ← num4 y1 y2 y3 y4
      let mo ← num2 a1 a2
      let da ← num2 b1 b2
      let h ← num2 h1 h2
      let mi ← num2 i1 i2
      let se ← num2 s1 s2
      let ms ← num3 m1 m2 m3
      mkMillis y mo da h mi se ms
  | _ => none

/-- `new Date(a) <= new Date(b)`: false whenever either side is an
invalid date (`NaN` comparisons are false in JavaScript). -/
def jsDateLe (a b : Option Int) : Bool :=
  match a, b with
  | some x, some y => decide (x ≤ y)
  | _, _ => false

/-- The audit-log filter predicate (Reports.tsx 85-89): action selector,
case-insensitive search over username/action, lexicographic start bound
and the end bound widened to `T23:59:59.999Z` and compared as a date. -/
def auditPred (f : FilterState) (log : AuditLog) : Bool :=
  let actionMatch :=
    decide (f.auditActionFilter = "all") || decide (log.action = f.auditActionFilter)
  let searchMatch :=
    decide (f.searchQuery = "") ||
      strIncludes (lowerStr log.username) (lowerStr f.searchQuery) ||
      strIncludes (lowerStr log.action) (lowerStr f.searchQuery)
  let dateMatch :=
    (decide (f.startDate = "") || decide (f.startDate ≤ log.timestamp)) &&
      (decide (f.endDate = "") ||
        jsDateLe (parseISO? log.timestamp) (parseISO? (f.endDate ++ "T23:59:59.999Z")))
  actionMatch && searchMatch && dateMatch

/-- `filteredAuditLogs` (Reports.tsx 83-91): a plain filter, no sort. -/
def filteredAuditLogs (auditLogs : List AuditLog) (f : FilterState) : List AuditLog :=
  auditLogs.filter (auditPred f)

/-! ### The keyed-accumulator primitive (`Map` built in a single pass) -/

/-- `Map` update as used by every summary builder: if the key is absent,
`map.set(k, init)` appends a fresh entry and it is immediately mutated by
`f`; if present, the entry is mutated in place, keeping its position
(insertion-order iteration). -/
def upsert {K V : Type} [DecidableEq K] (k : K) (init : V) (f : V → V) :
    List (K × V) → List (K × V)
  | [] => [(k, f init)]
  | (k', v) :: rest =>
      if k' = k then (k, f v) :: rest else (k', v) :: upsert k init f rest

/-- Lookup in the association-list model of `Map`. -/
def alGet {K V : Type} [DecidableEq K] (k : K) (m : List (K × V)) : Option V :=
  (m.find? (fun p => decide (p.1 = k))).map Prod.snd

/-! ### Contractor Summary (Reports.tsx 104-118) -/

/-- One group of the Contractor Summary. -/
structure ContractorAcc where
  name : String
  totalBills : Nat
  grandTotal : ℚ
  totalDeductions : ℚ
  netAmount : ℚ
  deriving DecidableEq, Repr

/-- One bill's effect on the contractor map: unattributed bills
(`!bill.contractor_id`, i.e. missing or `0`) are skipped. -/
def contractorStep (m : List (Nat × ContractorAcc)) (bill : SavedBill) :
    List (Nat × ContractorAcc) :=
  match bill.contractor_id with
  | none => m
  | some cid =>
      if cid = 0 then m
      else
        upsert cid
          { name := bill.contractor_name, totalBills := 0, grandTotal := 0,
            totalDeductions := 0, netAmount := 0 }
          (fun cur =>
            { cur with
              totalBills := cur.totalBills + 1,
              grandTotal := cur.grandTotal + bill.grandTotal,
              totalDeductions := cur.totalDeductions + bill.totalDeductions,
              netAmount := cur.netAmount + bill.netAmount })
          m

/-- Sort relation of the Contractor Summary: net amount descending. -/
def contractorDesc (a b : ContractorAcc) : Prop := b.netAmount ≤ a.netAmount

instance : DecidableRel contractorDesc := fun a b =>
  inferInstanceAs (Decidable (b.netAmount ≤ a.netAmount))

instance : IsTotal ContractorAcc contractorDesc :=
  ⟨fun a b => le_total b.netAmount a.netAmount⟩

instance : IsTrans ContractorAcc contractorDesc :=
  ⟨fun _ _ _ hab hbc => le_trans hbc hab⟩

/-- `contractorSummary`: group the filtered bills by contractor id,
accumulate, then list the map's values sorted by net amount descending. -/
def contractorSummary (bills : List SavedBill) : List ContractorAcc :=
  List.insertionSort contractorDesc ((bills.foldl contractorStep []).map Prod.snd)

/-! ### Monthly Summary (Reports.tsx 157-171) -/

/-- One group of the Monthly Summary. -/
structure MonthlyAcc where
  month : String
  totalBills : Nat
  grandTotal : ℚ
  totalDeductions : ℚ
  netAmount : ℚ
  deriving DecidableEq, Repr

/-- One bill's effect on the monthly map; the key is
`bill.bill_date.substring(0, 7)` (`YYYY-MM`). -/
def monthlyStep (m : List (String × MonthlyAcc)) (bill : SavedBill) :
    List (String × MonthlyAcc) :=
  upsert (bill.bill_date.take 7)
    { month := bill.bill_date.take 7, totalBills := 0, grandTotal := 0,
      totalDeductions := 0, netAmount := 0 }
    (fun cur =>
      { cur with
        totalBills := cur.totalBills + 1,
        grandTotal := cur.grandTotal + bill.grandTotal,
        totalDeductions := cur.totalDeductions + bill.totalDeductions,
        netAmount := cur.netAmount + bill.netAmount })
    m

/-- Sort relation of the Monthly Summary: month string descending
(`b.month.localeCompare(a.month)`, codepoint order on `YYYY-MM`). -/
def monthDesc (a b : MonthlyAcc) : Prop := b.month ≤ a.month

instance : DecidableRel monthDesc := fun a b =>
  inferInstanceAs (Decidable (b.month ≤ a.month))

instance : IsTotal MonthlyAcc monthDesc :=
  ⟨fun a b => le_total b.month a.month⟩

instance : IsTrans MonthlyAcc monthDesc :=
  ⟨fun _ _ _ hab hbc => le_trans hbc hab⟩

/-- `monthlySummary`: group by `YYYY-MM`, most recent month first. -/
def monthlySummary (bills : List SavedBill) : List MonthlyAcc :=
  List.insertionSort monthDesc ((bills.foldl monthlyStep []).map Prod.snd)

/-! ### Station Summary (Reports.tsx 173-199) -/

/-- One station's accumulator: dispatched and received counters plus the
set (insertion-ordered, duplicate-free) of associated bill ids. -/
structure StationAcc where
  name : String
  dispatchedTrips : Nat
  dispatchedKgs : ℚ
  dispatchedValue : ℚ
  receivedTrips : Nat
  receivedKgs : ℚ
  billIds : List String
  deriving DecidableEq, Repr

/-- Fresh zero-filled station entry (`getStation`'s initialisation). -/
def stationInit (name : String) : StationAcc :=
  { name := name, dispatchedTrips := 0, dispatchedKgs := 0, dispatchedValue := 0,
    receivedTrips := 0, receivedKgs := 0, billIds := [] }

/-- `Set.add`: append if absent. -/
def addBillId (billId : String) (l : List String) : List String :=
  if billId ∈ l then l else l ++ [billId]

/-- One bill item's effect on the station map: the origin station accrues
a dispatched trip, its net kg and its amount; the destination station a
received trip and its net kg. -/
def stationItemStep (billId : String) (m : List (String × StationAcc))
    (item : BillItem) : List (String × StationAcc) :=
  let m1 :=
    upsert item.fromStation (stationInit item.fromStation)
      (fun e =>
        { e with
          dispatchedTrips := e.dispatchedTrips + 1,
          dispatchedKgs := e.dispatchedKgs + item.netKgs,
          dispatchedValue := e.dispatchedValue + item.rs,
          billIds := addBillId billId e.billIds })
      m
  upsert item.toStation (stationInit item.toStation)
    (fun e =>
      { e with
        receivedTrips := e.receivedTrips + 1,
        receivedKgs := e.receivedKgs + item.netKgs,
        billIds := addBillId billId e.billIds })
    m1

/-- One bill's effect on the station map: every item processed in order. -/
def stationBillStep (m : List (String × StationAcc)) (bill : SavedBill) :
    List (String × StationAcc) :=
  bill.bill_items.foldl (stationItemStep bill.id) m

/-- Sort relation of the Station Summary: dispatched value descending. -/
def stationDesc (a b : StationAcc) : Prop := b.dispatchedValue ≤ a.dispatchedValue

instance : DecidableRel stationDesc := fun a b =>
  inferInstanceAs (Decidable (b.dispatchedValue ≤ a.dispatchedValue))

instance : IsTotal StationAcc stationDesc :=
  ⟨fun a b => le_total b.dispatchedValue a.dispatchedValue⟩

instance : IsTrans StationAcc stationDesc :=
  ⟨fun _ _ _ hab hbc => le_trans hbc hab⟩

/-- `stationSummary`: per-station dispatch/receive accumulators over all
items of the filtered bills, sorted by dispatched value descending. -/
def stationSummary (bills : List SavedBill) : List StationAcc :=
  List.insertionSort stationDesc ((bills.foldl stationBillStep []).map Prod.snd)

/-! ### Deductions Summary (Reports.tsx 201-213) -/

/-- The Deduction-Category Summary: each named numeric category summed
across the filtered bills (the `others_description` key is excluded by
the guard), plus `total`, the sum of every bill's `totalDeductions`. -/
structure DeductionsTotals where
  penalty : ℚ
  income_tax : ℚ
  tajveed_ul_quran : ℚ
  education_cess : ℚ
  klc : ℚ
  sd_current : ℚ
  gst_current : ℚ
  others : ℚ
  total : ℚ
  deriving DecidableEq, Repr

/-- One bill's contribution to the deductions summary. -/
def deductionsStep (acc : DeductionsTotals) (bill : SavedBill) : DeductionsTotals :=
  { penalty := acc.penalty + bill.deductions.penalty,
    income_tax := acc.income_tax + bill.deductions.income_tax,
    tajveed_ul_quran := acc.tajveed_ul_quran + bill.deductions.tajveed_ul_quran,
    education_cess := acc.education_cess + bill.deductions.education_cess,
    klc := acc.klc + bill.deductions.klc,
    sd_current := acc.sd_current + bill.deductions.sd_current,
    gst_current := acc.gst_current + bill.deductions.gst_current,
    others := acc.others + bill.deductions.others,
    total := acc.total + bill.totalDeductions }

/-- `deductionsSummary`: fold every filtered bill into the zero record. -/
def deductionsSummary (bills : List SavedBill) : DeductionsTotals :=
  bills.foldl deductionsStep
    { penalty := 0, income_tax := 0, tajveed_ul_quran := 0, education_cess := 0,
      klc := 0, sd_current := 0, gst_current := 0, others := 0, total := 0 }

/-! ### Statement generation (Reports.tsx 215-231) -/

/-- The rolled-up financial summary of a statement.  The accumulator's
`deductions` starts as the empty object `{}`: every numeric read through
`|| 0` is `0` and `others_description` is absent (`none`). -/
structure StatementSummary where
  grandTotal : ℚ
  netAmount : ℚ
  totalDeductions : ℚ
  deductions : CalculatedDeductions
  deriving DecidableEq, Repr

/-- The frozen `StatementData` snapshot. -/
structure StatementData where
  contractorName : String
  periodStart : String
  periodEnd : String
  bills : List SavedBill
  summary : StatementSummary
  deriving DecidableEq, Repr

/-- One bill's contribution to the statement summary: totals plus every
numeric deduction key (the loop guard skips `others_description`, which
is therefore never written). -/
def stmtStep (acc : StatementSummary) (bill : SavedBill) : StatementSummary :=
  { grandTotal := acc.grandTotal + bill.grandTotal,
    netAmount := acc.netAmount + bill.netAmount,
    totalDeductions := acc.totalDeductions + bill.totalDeductions,
    deductions :=
      { penalty := acc.deductions.penalty + bill.deductions.penalty,
        income_tax := acc.deductions.income_tax + bill.deductions.income_tax,
        tajveed_ul_quran := acc.deductions.tajveed_ul_quran + bill.deductions.tajveed_ul_quran,
        education_cess := acc.deductions.education_cess + bill.deductions.education_cess,
        klc := acc.deductions.klc + bill.deductions.klc,
        sd_current := acc.deductions.sd_current + bill.deductions.sd_current,
        gst_current := acc.deductions.gst_current + bill.deductions.gst_current,
        others := acc.deductions.others + bill.deductions.others,
        others_description := acc.deductions.others_description } }

/-- The initial statement accumulator
(`{ grandTotal: 0, netAmount: 0, totalDeductions: 0, deductions: {} }`). -/
def stmtInit : StatementSummary :=
  { grandTotal := 0, netAmount := 0, totalDeductions := 0,
    deductions :=
      { penalty := 0, income_tax := 0, tajveed_ul_quran := 0, education_cess := 0,
        klc := 0, sd_current := 0, gst_current := 0, others := 0,
        others_description := none } }

/-- Outcome of `handleGenerateStatement` at its public interface: the
`"all"` guard alerts and returns (a ValidationError), an unresolvable
contractor id returns silently (no state change), and otherwise a
statement snapshot is set. -/
inductive GenerateOutcome where
  | validationError : GenerateOutcome
  | noOp : GenerateOutcome
  | snapshot (data : StatementData) : GenerateOutcome
  deriving DecidableEq, Repr

/-- `handleGenerateStatement` (Reports.tsx 215-231). -/
def handleGenerateStatement (contractors : List Contractor)
    (savedBills : List SavedBill) (contracts : List Contract)
    (f : FilterState) : GenerateOutcome :=
  match f.selectedContractorId with
  | .all => .validationError
  | .id n =>
      match contractors.find? (fun c => c.id == n) with
      | none => .noOp
      | some contractor =>
          let billsForStatement :=
            (filteredBills savedBills contracts f).filter
              (fun b => decide (b.contractor_id = some n))
          .snapshot
            { contractorName := contractor.name,
              periodStart := f.startDate,
              periodEnd := f.endDate,
              bills := billsForStatement,
              summary := billsForStatement.foldl stmtStep stmtInit }

/-! ### CSV export (Reports.tsx 233-244) -/

/-- `fracDigits d m` is the `d`-digit zero-padded decimal rendering of
`m % 10^d`, most significant digit first. -/
def fracDigits : Nat → Nat → List Char
  | 0, _ => []
  | d + 1, m => Nat.digitChar (m / 10 ^ d) :: fracDigits d (m % 10 ^ d)

/-- `Number.prototype.toFixed(d)` on an exact rational: the sign of the
argument followed by the decimal rendering of the integer nearest to
`|q|·10^d` (ties away from zero), with exactly `d` digits after the
point (ECMA-262 `Number.prototype.toFixed`).  The rounded magnitude
`⌊|q|·10^d + 1/2⌋` is computed directly on the reduced
numerator/denominator as `(|num|·10^d·2 + den) / (2·den)`. -/
def toFixed (d : Nat) (q : ℚ) : String :=
  let a : Nat := (q.num.natAbs * 10 ^ d * 2 + q.den) / (2 * q.den)
  let sign : List Char := if q < 0 then ['-'] else []
  let intChars : List Char := Nat.toDigits 10 (a / 10 ^ d)
  let fracChars : List Char := if d = 0 then [] else '.' :: fracDigits d (a % 10 ^ d)
  ⟨sign ++ intChars ++ fracChars⟩

/-- One flattened CSV row; the field order is the column order of the
export (`Bill #` … `Bill Net Amount`). -/
structure CsvRow where
  billNumber : String
  billDate : String
  contractor : String
  sanctionedNo : String
  fromStation : String
  toStation : String
  mode : String
  totalBags : Nat
  ppBags : Nat
  juteBags : Nat
  netKgs : String
  bardanaKgs : String
  grossKgs : String
  ratePerKg : String
  amountRs : String
  billGrandTotal : String
  billTotalDeductions : String
  billNetAmount : String
  deriving DecidableEq, Repr

/-- The cells of a row in column order, numbers rendered as by
`Papa.unparse`. -/
def CsvRow.cells (r : CsvRow) : List String :=
  [r.billNumber, r.billDate, r.contractor, r.sanctionedNo, r.fromStation,
   r.toStation, r.mode, toString r.totalBags, toString r.ppBags,
   toString r.juteBags, r.netKgs, r.bardanaKgs, r.grossKgs, r.ratePerKg,
   r.amountRs, r.billGrandTotal, r.billTotalDeductions, r.billNetAmount]

/-- The flattened row for one bill item: the parent bill's identifying
fields plus the item's fields, with the source's decimal precisions. -/
def csvRowOf (bill : SavedBill) (item : BillItem) : CsvRow :=
  { billNumber := bill.bill_number,
    billDate := bill.bill_date,
    contractor := bill.contractor_name,
    sanctionedNo := bill.sanctioned_no,
    fromStation := item.fromStation,
    toStation := item.toStation,
    mode := item.mode,
    totalBags := item.bags,
    ppBags := item.ppBags,
    juteBags := item.juteBags,
    netKgs := toFixed 2 item.netKgs,
    bardanaKgs := toFixed 3 item.bardanaKgs,
    grossKgs := toFixed 2 item.grossKgs,
    ratePerKg := toFixed 4 item.rate_per_kg,
    amountRs := toFixed 2 item.rs,
    billGrandTotal := toFixed 2 bill.grandTotal,
    billTotalDeductions := toFixed 2 bill.totalDeductions,
    billNetAmount := toFixed 2 bill.netAmount }

/-- Flatten bills to rows: one row per bill item. -/
def csvRows : List SavedBill → List CsvRow
  | [] => []
  | bill :: rest => bill.bill_items.map (csvRowOf bill) ++ csvRows rest

/-- `handleExportCSV` (Reports.tsx 233-244): with no matching bill it
alerts and exports nothing (`none`); otherwise it produces the flattened
rows handed to `Papa.unparse`. -/
def handleExportCSV (bills : List SavedBill) : Option (List CsvRow) :=
  if bills.length = 0 then none else some (csvRows bills)

/-! ### Specification-side measures used in theorem statements -/

/-- Sum of `netAmount` over a list of bills. -/
def sumNetAmount (bills : List SavedBill) : ℚ :=
  (bills.map (fun b => b.netAmount)).sum

/-- Sum of `totalDeductions` over a list of bills. -/
def sumTotalDeductions (bills : List SavedBill) : ℚ :=
  (bills.map (fun b => b.totalDeductions)).sum

/-- Sum of `netAmount` over the Contractor Summary's groups. -/
def contractorNetSum (l : List ContractorAcc) : ℚ :=
  (l.map (fun g => g.netAmount)).sum

/-- Sum of `netAmount` over the Monthly Summary's groups. -/
def monthlyNetSum (l : List MonthlyAcc) : ℚ :=
  (l.map (fun g => g.netAmount)).sum

/-- The all-pass filter state (every selector at its default). -/
def filterAll : FilterState :=
  { selectedContractorId := .all, selectedRoute := .all, searchQuery := "",
    startDate := "", endDate := "", auditActionFilter := "all" }

/-! ### Generic lemmas about the keyed-accumulator fold -/

theorem sum_map_upsert {K V : Type} [DecidableEq K] (g : V → ℚ) (c : ℚ)
    (k : K) (iv : V) (f : V → V) (hiv : g iv = 0)
    (hf : ∀ v, g (f v) = g v + c) :
    ∀ m : List (K × V),
      ((upsert k iv f m).map (fun p => g p.2)).sum
        = ((m.map (fun p => g p.2)).sum) + c
  | [] => by simp [upsert, hf, hiv]
  | (k', v) :: rest => by
      by_cases h : k' = k
      · simp only [upsert, if_pos h, List.map_cons, List.sum_cons, hf]
        ring
      · simp only [upsert, if_neg h, List.map_cons, List.sum_cons,
          sum_map_upsert g c k iv f hiv hf rest]
        ring

theorem contractorFold_sumNet :
    ∀ (bills : List SavedBill) (m : List (Nat × ContractorAcc)),
      (((bills.foldl contractorStep m).map (fun p => p.2.netAmount)).sum)
        = ((m.map (fun p => p.2.netAmount)).sum)
            + sumNetAmount (bills.filter (fun b => jsTruthy b.contractor_id))
  | [], m => by simp [sumNetAmount]
  | b :: bs, m => by
      simp only [List.foldl_cons]
      rw [contractorFold_sumNet bs (contractorStep m b)]
      cases hcid : b.contractor_id with
      | none =>
          simp [contractorStep, hcid, jsTruthy, List.filter_cons]
      | some cid =>
          by_cases h0 : cid = 0
          · simp [contractorStep, hcid, h0, jsTruthy, List.filter_cons]
          · have hstep : contractorStep m b =
                upsert cid
                  { name := b.contractor_name, totalBills := 0, grandTotal := 0,
                    totalDeductions := 0, netAmount := 0 }
                  (fun cur =>
                    { cur with
                      totalBills := cur.totalBills + 1,
                      grandTotal := cur.grandTotal + b.grandTotal,
                      totalDeductions := cur.totalDeductions + b.totalDeductions,
                      netAmount := cur.netAmount + b.netAmount }) m := by
              simp [contractorStep, hcid, h0]
            have hup := sum_map_upsert (fun a : ContractorAcc => a.netAmount)
              b.netAmount cid
              { name := b.contractor_name, totalBills := 0, grandTotal := 0,
                totalDeductions := 0, netAmount := 0 }
              (fun cur =>
                { cur with
                  totalBills := cur.totalBills + 1,
                  grandTotal := cur.grandTotal + b.grandTotal,
                  totalDeductions := cur.totalDeductions + b.totalDeductions,
                  netAmount := cur.netAmount + b.netAmount })
              rfl (fun v => rfl) m
            simp only [] at hup
            rw [hstep, hup]
            have hkeep : jsTruthy b.contractor_id = true := by
              simp [jsTruthy, hcid, h0]
            simp only [List.filter_cons, hkeep, if_pos]
            simp [sumNetAmount]
            ring

theorem monthlyFold_sumNet :
    ∀ (bills : List SavedBill) (m : List (String × MonthlyAcc)),
      (((bills.foldl monthlyStep m).map (fun p => p.2.netAmount)).sum)
        = ((m.map (fun p => p.2.netAmount)).sum) + sumNetAmount bills
  | [], m => by simp [sumNetAmount]
  | b :: bs, m => by
      simp only [List.foldl_cons]
      rw [monthlyFold_sumNet bs (monthlyStep m b)]
      have hup := sum_map_upsert (fun a : MonthlyAcc => a.netAmount)
        b.netAmount (b.bill_date.take 7)
        { month := b.bill_date.take 7, totalBills := 0, grandTotal := 0,
          totalDeductions := 0, netAmount := 0 }
        (fun cur =>
          { cur with
            totalBills := cur.totalBills + 1,
            grandTotal := cur.grandTotal + b.grandTotal,
            totalDeductions := cur.totalDeductions + b.totalDeductions,
            netAmount := cur.netAmount + b.netAmount })
        rfl (fun v => rfl) m
      simp only [] at hup
      rw [monthlyStep, hup]
      simp [sumNetAmount]
      ring

theorem deductionsFold_total :
    ∀ (bills : List SavedBill) (acc : DeductionsTotals),
      (bills.foldl deductionsStep acc).total = acc.total + sumTotalDeductions bills
  | [], acc => by simp [sumTotalDeductions]
  | b :: bs, acc => by
      simp only [List.foldl_cons]
      rw [deductionsFold_total bs (deductionsStep acc b)]
      simp [deductionsStep, sumTotalDeductions]
      ring

/-- A bill used to refute universal contractor-summary conservation: it
is unattributed (`contractor_id` missing), so the Contractor Summary
skips it while the filtered subset still carries its `netAmount`. -/
def orphanBill : SavedBill :=
  { id := "b0", bill_number := "B-0", bill_date := "2024-01-15",
    contractor_id := none, contractor_name := "", sanctioned_no := "S-0",
    bill_items := [], deductions :=
      { penalty := 0, income_tax := 0, tajveed_ul_quran := 0, education_cess := 0,
        klc := 0, sd_current := 0, gst_current := 0, others := 0,
        others_description := none },
    grandTotal := 1000, totalDeductions := 100, netAmount := 900 }

/-- C1, as stated, fails: with one unattributed bill passing the all-pass
filter, the Contractor Summary's group sum of `netAmount` is `0` while
the filtered subset's own sum is `900` — the unattributed record is lost
by the `if (!bill.contractor_id) return` skip. -/
theorem c1_counterexample :
    ¬ contractorNetSum (contractorSummary (filteredBills [orphanBill] [] filterAll))
        = sumNetAmount (filteredBills [orphanBill] [] filterAll) := by
  have h1 : filteredBills [orphanBill] [] filterAll = [orphanBill] := by decide
  have h2 : contractorSummary [orphanBill] = [] := rfl
  rw [h1, h2]
  norm_num [contractorNetSum, sumNetAmount, orphanBill]

/-- C1 (amended): whenever every bill of the filtered subset is
attributed (truthy `contractor_id`; unattributed bills are skipped by the
Contractor Summary), the sum of `netAmount` over the Contractor Summary's
groups equals the filtered subset's own sum of `netAmount`; the Monthly
Summary satisfies the same conservation law unconditionally, and the
Deduction-Category Summary's `total` equals the subset's sum of
`totalDeductions` unconditionally — the attribution proviso guards only
the Contractor Summary conjunct. -/
theorem c1_conservation (savedBills : List SavedBill) (contracts : List Contract)
    (f : FilterState) :
    ((∀ b ∈ filteredBills savedBills contracts f, jsTruthy b.contractor_id = true) →
        contractorNetSum (contractorSummary (filteredBills savedBills contracts f))
          = sumNetAmount (filteredBills savedBills contracts f))
      ∧ monthlyNetSum (monthlySummary (filteredBills savedBills contracts f))
        = sumNetAmount (filteredBills savedBills contracts f)
      ∧ (deductionsSummary (filteredBills savedBills contracts f)).total
        = sumTotalDeductions (filteredBills savedBills contracts f) := by
  set l := filteredBills savedBills contracts f with hl
  refine ⟨?_, ?_, ?_⟩
  · intro h
    have hperm :
        ((contractorSummary l).map (fun g => g.netAmount)).sum
          = ((((l.foldl contractorStep []).map Prod.snd).map
              (fun g => g.netAmount)).sum) :=
      ((List.perm_insertionSort contractorDesc _).map _).sum_eq
    have hmm :
        (((l.foldl contractorStep []).map Prod.snd).map (fun g => g.netAmount))
          = ((l.foldl contractorStep []).map (fun p => p.2.netAmount)) := by
      simp [List.map_map, Function.comp]
    rw [contractorNetSum, hperm, hmm, contractorFold_sumNet]
    rw [List.filter_eq_self.mpr h]
    simp
  · have hperm :
        ((monthlySummary l).map (fun g => g.netAmount)).sum
          = ((((l.foldl monthlyStep []).map Prod.snd).map
              (fun g => g.netAmount)).sum) :=
      ((List.perm_insertionSort monthDesc _).map _).sum_eq
    have hmm :
        (((l.foldl monthlyStep []).map Prod.snd).map (fun g => g.netAmount))
          = ((l.foldl monthlyStep []).map (fun p => p.2.netAmount)) := by
      simp [List.map_map, Function.comp]
    rw [monthlyNetSum, hperm, hmm, monthlyFold_sumNet]
    simp
  · rw [deductionsSummary, deductionsFold_total]
    simp

/-- A well-attributed bill for the conservation witness. -/
def acmeBill : SavedBill :=
  { id := "b1", bill_number := "B-1", bill_date := "2024-01-15",
    contractor_id := some 1, contractor_name := "Acme", sanctioned_no := "S-1",
    bill_items := [], deductions :=
      { penalty := 10, income_tax := 20, tajveed_ul_quran := 0, education_cess := 0,
        klc := 0, sd_current := 0, gst_current := 0, others := 70,
        others_description := some "Freight charges" },
    grandTotal := 1000, totalDeductions := 100, netAmount := 900 }

theorem c1_conservation_witness :
    (∀ b ∈ filteredBills [acmeBill] [] filterAll, jsTruthy b.contractor_id = true)
      ∧ (contractorNetSum (contractorSummary (filteredBills [acmeBill] [] filterAll))
          = sumNetAmount (filteredBills [acmeBill] [] filterAll)
        ∧ monthlyNetSum (monthlySummary (filteredBills [acmeBill] [] filterAll))
          = sumNetAmount (filteredBills [acmeBill] [] filterAll)
        ∧ (deductionsSummary (filteredBills [acmeBill] [] filterAll)).total
          = sumTotalDeductions (filteredBills [acmeBill] [] filterAll)) :=
  ⟨by decide,
    (c1_conservation [acmeBill] [] filterAll).1 (by decide),
    (c1_conservation [acmeBill] [] filterAll).2.1,
    (c1_conservation [acmeBill] [] filterAll).2.2⟩

/-- C2: with the contractor selector at `"all"`, statement generation
always signals the ValidationError and never produces a snapshot. -/
theorem c2_statement_precondition (contractors : List Contractor)
    (savedBills : List SavedBill) (contracts : List Contract) (f : FilterState)
    (h : f.selectedContractorId = ContractorSel.all) :
    handleGenerateStatement contractors savedBills contracts f
        = GenerateOutcome.validationError
      ∧ ∀ s, handleGenerateStatement contractors savedBills contracts f
          ≠ GenerateOutcome.snapshot s := by
  constructor
  · simp [handleGenerateStatement, h]
  · intro s
    simp [handleGenerateStatement, h]

theorem c2_statement_precondition_witness :
    filterAll.selectedContractorId = ContractorSel.all
      ∧ (handleGenerateStatement [] [] [] filterAll = GenerateOutcome.validationError
        ∧ ∀ s, handleGenerateStatement [] [] [] filterAll ≠ GenerateOutcome.snapshot s) :=
  ⟨rfl, c2_statement_precondition [] [] [] filterAll rfl⟩

/-- C10: a specific contractor selector whose id resolves to no contractor
makes statement generation return silently: neither an error nor a
snapshot, just the `if (!contractor) return` no-op. -/
theorem c10_unresolvable_contractor (contractors : List Contractor)
    (savedBills : List SavedBill) (contracts : List Contract) (f : FilterState)
    (n : Nat) (hsel : f.selectedContractorId = ContractorSel.id n)
    (h : ∀ c ∈ contractors, c.id ≠ n) :
    handleGenerateStatement contractors savedBills contracts f = GenerateOutcome.noOp := by
  have hfind : contractors.find? (fun c => c.id == n) = none := by
    rw [List.find?_eq_none]
    intro c hc
    simpa using h c hc
  simp [handleGenerateStatement, hsel, hfind]

/-- The filter state selecting contractor id 2. -/
def filterC2 : FilterState :=
  { selectedContractorId := .id 2, selectedRoute := .all, searchQuery := "",
    startDate := "", endDate := "", auditActionFilter := "all" }

theorem c10_unresolvable_contractor_witness :
    (filterC2.selectedContractorId = ContractorSel.id 2
        ∧ ∀ c ∈ [Contractor.mk 1 "Acme"], c.id ≠ 2)
      ∧ handleGenerateStatement [Contractor.mk 1 "Acme"] [acmeBill] [] filterC2
          = GenerateOutcome.noOp :=
  ⟨⟨rfl, by decide⟩,
    c10_unresolvable_contractor [Contractor.mk 1 "Acme"] [acmeBill] [] filterC2 2 rfl
      (by decide)⟩

/-- C8: the filter and every summary builder are pure functions — equal
inputs give equal filtered sets and equal summary outputs. -/
theorem c8_determinism (s1 s2 : List SavedBill) (c1 c2 : List Contract)
    (f1 f2 : FilterState) (l1 l2 : List SavedBill)
    (hs : s1 = s2) (hc : c1 = c2) (hf : f1 = f2) (hl : l1 = l2) :
    filteredBills s1 c1 f1 = filteredBills s2 c2 f2
      ∧ contractorSummary l1 = contractorSummary l2
      ∧ monthlySummary l1 = monthlySummary l2
      ∧ stationSummary l1 = stationSummary l2
      ∧ deductionsSummary l1 = deductionsSummary l2 := by
  subst hs; subst hc; subst hf; subst hl
  exact ⟨rfl, rfl, rfl, rfl, rfl⟩

/-- The audit filter state with only the end date set to `2024-03-10`. -/
def filterEndMar10 : FilterState :=
  { selectedContractorId := .all, selectedRoute := .all, searchQuery := "",
    startDate := "", endDate := "2024-03-10", auditActionFilter := "all" }

/-- C4: with an end date of `2024-03-10` (widened to `23:59:59.999` before
comparison) and every other criterion unset, the audit filter keeps any
entry timestamped `2024-03-10T23:59:00Z` and drops any entry timestamped
`2024-03-11T00:00:01Z`. -/
theorem c4_audit_end_bound (logs : List AuditLog) (li lo : AuditLog)
    (hin : li ∈ logs) (_hout : lo ∈ logs)
    (hti : li.timestamp = "2024-03-10T23:59:00Z")
    (hto : lo.timestamp = "2024-03-11T00:00:01Z") :
    li ∈ filteredAuditLogs logs filterEndMar10
      ∧ lo ∉ filteredAuditLogs logs filterEndMar10 := by
  constructor
  · have hp : auditPred filterEndMar10 li = true := by
      simp [auditPred, filterEndMar10, hti]
      decide
    exact List.mem_filter.mpr ⟨hin, hp⟩
  · intro hmem
    have hp := (List.mem_filter.mp hmem).2
    have hp' : auditPred filterEndMar10 lo = false := by
      simp [auditPred, filterEndMar10, hto]
      decide
    rw [hp'] at hp
    exact Bool.false_ne_true hp

/-- An audit entry falling just inside the widened end bound. -/
def logInside : AuditLog :=
  { id := "a1", timestamp := "2024-03-10T23:59:00Z", userId := 1,
    username := "admin", action := "Bill Created", details := [] }

/-- An audit entry falling just after the widened end bound. -/
def logOutside : AuditLog :=
  { id := "a2", timestamp := "2024-03-11T00:00:01Z", userId := 1,
    username := "admin", action := "Bill Created", details := [] }

theorem c4_audit_end_bound_witness :
    (logInside ∈ [logInside, logOutside] ∧ logOutside ∈ [logInside, logOutside]
        ∧ logInside.timestamp = "2024-03-10T23:59:00Z"
        ∧ logOutside.timestamp = "2024-03-11T00:00:01Z")
      ∧ (logInside ∈ filteredAuditLogs [logInside, logOutside] filterEndMar10
        ∧ logOutside ∉ filteredAuditLogs [logInside, logOutside] filterEndMar10) :=
  ⟨⟨by decide, by decide, rfl, rfl⟩,
    c4_audit_end_bound [logInside, logOutside] logInside logOutside
      (by decide) (by decide) rfl rfl⟩

/-- Additive projections of the statement-summary fold. -/
theorem stmtFold_proj (proj : StatementSummary → ℚ) (bproj : SavedBill → ℚ)
    (hstep : ∀ a b, proj (stmtStep a b) = proj a + bproj b) :
    ∀ (bills : List SavedBill) (a : StatementSummary),
      proj (bills.foldl stmtStep a) = proj a + (bills.map bproj).sum
  | [], a => by simp
  | b :: bs, a => by
      simp only [List.foldl_cons, List.map_cons, List.sum_cons]
      rw [stmtFold_proj proj bproj hstep bs (stmtStep a b), hstep]
      ring

/-- The statement-summary fold never writes `others_description`. -/
theorem stmtFold_desc :
    ∀ (bills : List SavedBill) (a : StatementSummary),
      (bills.foldl stmtStep a).deductions.others_description
        = a.deductions.others_description
  | [], _ => rfl
  | b :: bs, a => by
      simp only [List.foldl_cons]
      rw [stmtFold_desc bs (stmtStep a b)]
      rfl

/-- C7 (amended): on every successful statement generation, each named
numeric deduction category of the snapshot — including the numeric
`others` amount — equals that category's sum over the statement's bill
subset; but the `others` description is **not** carried into the
snapshot: the roll-up starts from the empty object and never writes
`others_description`, so the snapshot's description is absent and the
statement display falls back to the generic `'Others'` label. -/
theorem c7_deduction_rollup (contractors : List Contractor)
    (savedBills : List SavedBill) (contracts : List Contract)
    (f : FilterState) (s : StatementData)
    (h : handleGenerateStatement contractors savedBills contracts f
      = GenerateOutcome.snapshot s) :
    s.summary.deductions.penalty = (s.bills.map (fun b => b.deductions.penalty)).sum
      ∧ s.summary.deductions.income_tax
        = (s.bills.map (fun b => b.deductions.income_tax)).sum
      ∧ s.summary.deductions.tajveed_ul_quran
        = (s.bills.map (fun b => b.deductions.tajveed_ul_quran)).sum
      ∧ s.summary.deductions.education_cess
        = (s.bills.map (fun b => b.deductions.education_cess)).sum
      ∧ s.summary.deductions.klc = (s.bills.map (fun b => b.deductions.klc)).sum
      ∧ s.summary.deductions.sd_current
        = (s.bills.map (fun b => b.deductions.sd_current)).sum
      ∧ s.summary.deductions.gst_current
        = (s.bills.map (fun b => b.deductions.gst_current)).sum
      ∧ s.summary.deductions.others = (s.bills.map (fun b => b.deductions.others)).sum
      ∧ s.summary.deductions.others_description = none := by
  cases hsel : f.selectedContractorId with
  | all =>
      unfold handleGenerateStatement at h
      rw [hsel] at h
      simp at h
  | id n =>
      unfold handleGenerateStatement at h
      rw [hsel] at h
      simp only [] at h
      cases hfind : contractors.find? (fun c => c.id == n) with
      | none => rw [hfind] at h; simp at h
      | some ctr =>
          rw [hfind] at h
          simp only [GenerateOutcome.snapshot.injEq] at h
          subst h
          refine ⟨?_, ?_, ?_, ?_, ?_, ?_, ?_, ?_, ?_⟩
          · rw [stmtFold_proj (fun a => a.deductions.penalty)
              (fun b => b.deductions.penalty) (fun _ _ => rfl)]
            simp [stmtInit]
          · rw [stmtFold_proj (fun a => a.deductions.income_tax)
              (fun b => b.deductions.income_tax) (fun _ _ => rfl)]
            simp [stmtInit]
          · rw [stmtFold_proj (fun a => a.deductions.tajveed_ul_quran)
              (fun b => b.deductions.tajveed_ul_quran) (fun _ _ => rfl)]
            simp [stmtInit]
          · rw [stmtFold_proj (fun a => a.deductions.education_cess)
              (fun b => b.deductions.education_cess) (fun _ _ => rfl)]
            simp [stmtInit]
          · rw [stmtFold_proj (fun a => a.deductions.klc)
              (fun b => b.deductions.klc) (fun _ _ => rfl)]
            simp [stmtInit]
          · rw [stmtFold_proj (fun a => a.deductions.sd_current)
              (fun b => b.deductions.sd_current) (fun _ _ => rfl)]
            simp [stmtInit]
          · rw [stmtFold_proj (fun a => a.deductions.gst_current)
              (fun b => b.deductions.gst_current) (fun _ _ => rfl)]
            simp [stmtInit]
          · rw [stmtFold_proj (fun a => a.deductions.others)
              (fun b => b.deductions.others) (fun _ _ => rfl)]
            simp [stmtInit]
          · rw [stmtFold_desc]
            rfl

/-- The filter state selecting contractor id 1. -/
def filterC1sel : FilterState :=
  { selectedContractorId := .id 1, selectedRoute := .all, searchQuery := "",
    startDate := "", endDate := "", auditActionFilter := "all" }

/-- The snapshot actually produced for `[acmeBill]` under `filterC1sel`. -/
def c7snap : StatementData :=
  { contractorName := "Acme", periodStart := "", periodEnd := "",
    bills := [acmeBill],
    summary :=
      { grandTotal := 1000, netAmount := 900, totalDeductions := 100,
        deductions :=
          { penalty := 10, income_tax := 20, tajveed_ul_quran := 0,
            education_cess := 0, klc := 0, sd_current := 0, gst_current := 0,
            others := 70, others_description := none } } }

/-- The statement actually generated for `[acmeBill]` under `filterC1sel`
is the snapshot `c7snap`. -/
theorem c7_generation_eq :
    handleGenerateStatement [Contractor.mk 1 "Acme"] [acmeBill] [] filterC1sel
      = GenerateOutcome.snapshot c7snap := by
  have hfb : filteredBills [acmeBill] [] filterC1sel = [acmeBill] := by decide
  unfold handleGenerateStatement
  simp only [filterC1sel, hfb, List.find?]
  norm_num [c7snap, stmtStep, stmtInit, acmeBill, List.filter]

/-- C7, as stated, fails: every bill of the statement subset carries the
`others` description `"Freight charges"`, yet the snapshot's
`others_description` is absent — the description is not carried into the
snapshot. -/
theorem c7_counterexample :
    handleGenerateStatement [Contractor.mk 1 "Acme"] [acmeBill] [] filterC1sel
        = GenerateOutcome.snapshot c7snap
      ∧ (∀ b ∈ c7snap.bills, b.deductions.others_description = some "Freight charges")
      ∧ ¬ c7snap.summary.deductions.others_description = some "Freight charges" :=
  ⟨c7_generation_eq, by decide, by decide⟩

theorem c7_deduction_rollup_witness :
    (handleGenerateStatement [Contractor.mk 1 "Acme"] [acmeBill] [] filterC1sel
        = GenerateOutcome.snapshot c7snap)
      ∧ (c7snap.summary.deductions.penalty
          = (c7snap.bills.map (fun b => b.deductions.penalty)).sum
        ∧ c7snap.summary.deductions.income_tax
          = (c7snap.bills.map (fun b => b.deductions.income_tax)).sum
        ∧ c7snap.summary.deductions.tajveed_ul_quran
          = (c7snap.bills.map (fun b => b.deductions.tajveed_ul_quran)).sum
        ∧ c7snap.summary.deductions.education_cess
          = (c7snap.bills.map (fun b => b.deductions.education_cess)).sum
        ∧ c7snap.summary.deductions.klc
          = (c7snap.bills.map (fun b => b.deductions.klc)).sum
        ∧ c7snap.summary.deductions.sd_current
          = (c7snap.bills.map (fun b => b.deductions.sd_current)).sum
        ∧ c7snap.summary.deductions.gst_current
          = (c7snap.bills.map (fun b => b.deductions.gst_current)).sum
        ∧ c7snap.summary.deductions.others
          = (c7snap.bills.map (fun b => b.deductions.others)).sum
        ∧ c7snap.summary.deductions.others_description = none) :=
  ⟨c7_generation_eq,
    c7_deduction_rollup [Contractor.mk 1 "Acme"] [acmeBill] [] filterC1sel c7snap
      c7_generation_eq⟩

theorem c8_determinism_witness :
    ([acmeBill] = [acmeBill] ∧ filterAll = filterAll)
      ∧ (filteredBills [acmeBill] [] filterAll = filteredBills [acmeBill] [] filterAll
        ∧ contractorSummary [acmeBill] = contractorSummary [acmeBill]
        ∧ monthlySummary [acmeBill] = monthlySummary [acmeBill]
        ∧ stationSummary [acmeBill] = stationSummary [acmeBill]
        ∧ deductionsSummary [acmeBill] = deductionsSummary [acmeBill]) :=
  ⟨⟨rfl, rfl⟩,
    c8_determinism [acmeBill] [acmeBill] [] [] filterAll filterAll [acmeBill] [acmeBill]
      rfl rfl rfl rfl⟩

/-! ### Decimal-precision facts about `toFixed` and the CSV rows -/

/-- Number of characters after the last `'.'` of a rendered number. -/
def fracLen (s : String) : Nat :=
  (s.data.reverse.takeWhile (fun c => c != '.')).length

theorem fracDigits_length : ∀ (d m : Nat), (fracDigits d m).length = d
  | 0, _ => rfl
  | d + 1, m => by simp [fracDigits, fracDigits_length d]

theorem digitChar_ne_dot : ∀ (n : Nat), (Nat.digitChar n != '.') = true
  | 0 => rfl | 1 => rfl | 2 => rfl | 3 => rfl | 4 => rfl | 5 => rfl | 6 => rfl
  | 7 => rfl | 8 => rfl | 9 => rfl | 10 => rfl | 11 => rfl | 12 => rfl
  | 13 => rfl | 14 => rfl | 15 => rfl | _ + 16 => rfl

theorem fracDigits_ne_dot :
    ∀ (d m : Nat), ∀ c ∈ fracDigits d m, (c != '.') = true
  | 0, _ => by intro c hc; simp [fracDigits] at hc
  | d + 1, m => by
      intro c hc
      simp only [fracDigits, List.mem_cons] at hc
      rcases hc with hc | hc
      · subst hc; exact digitChar_ne_dot _
      · exact fracDigits_ne_dot d (m % 10 ^ d) c hc

theorem takeWhile_append_cons (p : Char → Bool) :
    ∀ (l₁ : List Char) (x : Char) (l₂ : List Char),
      (∀ c ∈ l₁, p c = true) → p x = false →
      (l₁ ++ x :: l₂).takeWhile p = l₁
  | [], x, l₂, _, hx => by simp [List.takeWhile_cons, hx]
  | a :: l₁, x, l₂, h, hx => by
      have ha : p a = true := h a (List.mem_cons_self a l₁)
      simp only [List.cons_append, List.takeWhile_cons, ha, if_true]
      rw [takeWhile_append_cons p l₁ x l₂ (fun c hc => h c (List.mem_cons_of_mem a hc)) hx]

/-- `toFixed d q` with `d ≠ 0` renders exactly `d` digits after the
decimal point. -/
theorem toFixed_fracLen (d : Nat) (q : ℚ) (hd : d ≠ 0) :
    fracLen (toFixed d q) = d ∧ '.' ∈ (toFixed d q).data := by
  unfold toFixed
  simp only [if_neg hd]
  set a : Nat := (q.num.natAbs * 10 ^ d * 2 + q.den) / (2 * q.den) with ha
  set sign : List Char := if q < 0 then ['-'] else [] with hsign
  set intChars : List Char := Nat.toDigits 10 (a / 10 ^ d) with hint
  set frac : List Char := fracDigits d (a % 10 ^ d) with hfrac
  constructor
  · show ((sign ++ intChars ++ ('.' :: frac)).reverse.takeWhile
      (fun c => c != '.')).length = d
    have hrev : (sign ++ intChars ++ ('.' :: frac)).reverse
        = frac.reverse ++ '.' :: (intChars.reverse ++ sign.reverse) := by
      simp [List.reverse_append, List.reverse_cons, List.append_assoc]
    rw [hrev, takeWhile_append_cons _ _ _ _ ?hall ?hdot]
    · rw [List.length_reverse, hfrac, fracDigits_length]
    case hall =>
      intro c hc
      exact fracDigits_ne_dot d (a % 10 ^ d) c (List.mem_reverse.mp hc)
    case hdot => decide
  · show '.' ∈ sign ++ intChars ++ ('.' :: frac)
    simp

/-- Total number of CSV rows: one per bill item. -/
theorem csvRows_length :
    ∀ bills : List SavedBill,
      (csvRows bills).length = (bills.map (fun b => b.bill_items.length)).sum
  | [] => rfl
  | b :: bs => by
      simp [csvRows, csvRows_length bs]

/-- Every bill item contributes its flattened row. -/
theorem csvRowOf_mem_csvRows :
    ∀ (bills : List SavedBill) (b : SavedBill) (it : BillItem),
      b ∈ bills → it ∈ b.bill_items → csvRowOf b it ∈ csvRows bills
  | [], _, _, hb, _ => by cases hb
  | b0 :: bs, b, it, hb, hit => by
      simp only [csvRows, List.mem_append]
      rcases List.mem_cons.mp hb with hb | hb
      · subst hb
        exact Or.inl (List.mem_map.mpr ⟨it, hit, rfl⟩)
      · exact Or.inr (csvRowOf_mem_csvRows bs b it hb hit)

/-- C6: a non-empty export produces exactly one row per bill item; each
row carries the parent bill's identifying fields and the item's fields in
the fixed column order, with Net KGs rendered to 2 decimals, Bardana KGs
to 3, Gross KGs to 2, Rate/Kg to 4, and every currency amount (item
amount, bill grand total, bill total deductions, bill net amount) to 2
decimals. -/
theorem c6_csv_contract (bills : List SavedBill) (rows : List CsvRow)
    (h : handleExportCSV bills = some rows) :
    rows.length = (bills.map (fun b => b.bill_items.length)).sum
      ∧ ∀ b ∈ bills, ∀ it ∈ b.bill_items,
          csvRowOf b it ∈ rows
          ∧ (csvRowOf b it).cells
            = [b.bill_number, b.bill_date, b.contractor_name, b.sanctioned_no,
               it.fromStation, it.toStation, it.mode, toString it.bags,
               toString it.ppBags, toString it.juteBags,
               toFixed 2 it.netKgs, toFixed 3 it.bardanaKgs, toFixed 2 it.grossKgs,
               toFixed 4 it.rate_per_kg, toFixed 2 it.rs, toFixed 2 b.grandTotal,
               toFixed 2 b.totalDeductions, toFixed 2 b.netAmount]
          ∧ fracLen (csvRowOf b it).netKgs = 2
          ∧ fracLen (csvRowOf b it).bardanaKgs = 3
          ∧ fracLen (csvRowOf b it).grossKgs = 2
          ∧ fracLen (csvRowOf b it).ratePerKg = 4
          ∧ fracLen (csvRowOf b it).amountRs = 2
          ∧ fracLen (csvRowOf b it).billGrandTotal = 2
          ∧ fracLen (csvRowOf b it).billTotalDeductions = 2
          ∧ fracLen (csvRowOf b it).billNetAmount = 2 := by
  have hrows : rows = csvRows bills := by
    unfold handleExportCSV at h
    by_cases h0 : bills.length = 0
    · rw [if_pos h0] at h; cases h
    · rw [if_neg h0] at h; exact (Option.some_inj.mp h).symm
  subst hrows
  refine ⟨csvRows_length bills, ?_⟩
  intro b hb it hit
  refine ⟨csvRowOf_mem_csvRows bills b it hb hit, rfl,
    (toFixed_fracLen 2 it.netKgs (by decide)).1,
    (toFixed_fracLen 3 it.bardanaKgs (by decide)).1,
    (toFixed_fracLen 2 it.grossKgs (by decide)).1,
    (toFixed_fracLen 4 it.rate_per_kg (by decide)).1,
    (toFixed_fracLen 2 it.rs (by decide)).1,
    (toFixed_fracLen 2 b.grandTotal (by decide)).1,
    (toFixed_fracLen 2 b.totalDeductions (by decide)).1,
    (toFixed_fracLen 2 b.netAmount (by decide)).1⟩

/-- The spec's export scenario: one item from X to Y, 500 net kg at rate
2.0 for amount 1000. -/
def exportItem : BillItem :=
  { id := "i1", contract_id := some 1, fromStation := "X", toStation := "Y",
    mode := "Truck", bags := 10, ppBags := 4, juteBags := 6, netKgs := 500,
    bardanaKgs := 25, grossKgs := 525, rate_per_kg := 2, rs := 1000 }

/-- The bill wrapping `exportItem`. -/
def exportBill : SavedBill :=
  { id := "b2", bill_number := "B-2", bill_date := "2024-01-15",
    contractor_id := some 1, contractor_name := "Acme", sanctioned_no := "S-2",
    bill_items := [exportItem], deductions :=
      { penalty := 0, income_tax := 0, tajveed_ul_quran := 0, education_cess := 0,
        klc := 0, sd_current := 0, gst_current := 0, others := 0,
        others_description := none },
    grandTotal := 1000, totalDeductions := 100, netAmount := 900 }

theorem c6_csv_contract_witness :
    handleExportCSV [exportBill]
        = some [{ billNumber := "B-2", billDate := "2024-01-15", contractor := "Acme",
                  sanctionedNo := "S-2", fromStation := "X", toStation := "Y",
                  mode := "Truck", totalBags := 10, ppBags := 4, juteBags := 6,
                  netKgs := "500.00", bardanaKgs := "25.000", grossKgs := "525.00",
                  ratePerKg := "2.0000", amountRs := "1000.00",
                  billGrandTotal := "1000.00", billTotalDeductions := "100.00",
                  billNetAmount := "900.00" }]
      ∧ ((csvRows [exportBill]).length
          = ([exportBill].map (fun b => b.bill_items.length)).sum
        ∧ ∀ b ∈ [exportBill], ∀ it ∈ b.bill_items,
            csvRowOf b it ∈ csvRows [exportBill]
            ∧ (csvRowOf b it).cells
              = [b.bill_number, b.bill_date, b.contractor_name, b.sanctioned_no,
                 it.fromStation, it.toStation, it.mode, toString it.bags,
                 toString it.ppBags, toString it.juteBags,
                 toFixed 2 it.netKgs, toFixed 3 it.bardanaKgs, toFixed 2 it.grossKgs,
                 toFixed 4 it.rate_per_kg, toFixed 2 it.rs, toFixed 2 b.grandTotal,
                 toFixed 2 b.totalDeductions, toFixed 2 b.netAmount]
            ∧ fracLen (csvRowOf b it).netKgs = 2
            ∧ fracLen (csvRowOf b it).bardanaKgs = 3
            ∧ fracLen (csvRowOf b it).grossKgs = 2
            ∧ fracLen (csvRowOf b it).ratePerKg = 4
            ∧ fracLen (csvRowOf b it).amountRs = 2
            ∧ fracLen (csvRowOf b it).billGrandTotal = 2
            ∧ fracLen (csvRowOf b it).billTotalDeductions = 2
            ∧ fracLen (csvRowOf b it).billNetAmount = 2) :=
  ⟨by decide, c6_csv_contract [exportBill] (csvRows [exportBill]) rfl⟩

/-! ### Station Summary characterisation (for the station duplication law) -/

/-- All items of a bill list, each tagged with its parent bill id, in
processing order. -/
def stationPairs : List SavedBill → List (String × BillItem)
  | [] => []
  | b :: bs => b.bill_items.map (fun i => (b.id, i)) ++ stationPairs bs

/-- Number of items dispatched from station `s`. -/
def cntFrom (ps : List (String × BillItem)) (s : String) : Nat :=
  (ps.filter (fun p => decide (p.2.fromStation = s))).length

/-- Net kg dispatched from station `s`. -/
def kgsFrom (ps : List (String × BillItem)) (s : String) : ℚ :=
  ((ps.filter (fun p => decide (p.2.fromStation = s))).map (fun p => p.2.netKgs)).sum

/-- Amount dispatched from station `s`. -/
def valFrom (ps : List (String × BillItem)) (s : String) : ℚ :=
  ((ps.filter (fun p => decide (p.2.fromStation = s))).map (fun p => p.2.rs)).sum

/-- Number of items received at station `s`. -/
def cntTo (ps : List (String × BillItem)) (s : String) : Nat :=
  (ps.filter (fun p => decide (p.2.toStation = s))).length

/-- Net kg received at station `s`. -/
def kgsTo (ps : List (String × BillItem)) (s : String) : ℚ :=
  ((ps.filter (fun p => decide (p.2.toStation = s))).map (fun p => p.2.netKgs)).sum

/-- One tagged item's effect on the station map. -/
def stationPairStep (m : List (String × StationAcc)) (p : String × BillItem) :
    List (String × StationAcc) :=
  stationItemStep p.1 m p.2

/-- Dispatched-trip count of an optional entry (absent = zero). -/
def dTripsOf : Option StationAcc → Nat
  | none => 0
  | some e => e.dispatchedTrips

/-- Dispatched kg of an optional entry. -/
def dKgsOf : Option StationAcc → ℚ
  | none => 0
  | some e => e.dispatchedKgs

/-- Dispatched value of an optional entry. -/
def dValOf : Option StationAcc → ℚ
  | none => 0
  | some e => e.dispatchedValue

/-- Received-trip count of an optional entry. -/
def rTripsOf : Option StationAcc → Nat
  | none => 0
  | some e => e.receivedTrips

/-- Received kg of an optional entry. -/
def rKgsOf : Option StationAcc → ℚ
  | none => 0
  | some e => e.receivedKgs

theorem alGet_upsert_self {K V : Type} [DecidableEq K] (k : K) (iv : V)
    (f : V → V) :
    ∀ m : List (K × V),
      alGet k (upsert k iv f m) = some (f ((alGet k m).getD iv))
  | [] => by simp [upsert, alGet, List.find?]
  | (k₀, v₀) :: rest => by
      by_cases h : k₀ = k
      · subst h
        simp [upsert, alGet, List.find?]
      · simp only [upsert, if_neg h]
        have hskip : ∀ tail : List (K × V),
            alGet k ((k₀, v₀) :: tail) = alGet k tail := by
          intro tail
          simp [alGet, List.find?, h]
        rw [hskip, hskip, alGet_upsert_self k iv f rest]

theorem alGet_upsert_other {K V : Type} [DecidableEq K] (k k' : K)
    (h : k' ≠ k) (iv : V) (f : V → V) :
    ∀ m : List (K × V), alGet k' (upsert k iv f m) = alGet k' m
  | [] => by simp [upsert, alGet, List.find?, Ne.symm h]
  | (k₀, v₀) :: rest => by
      by_cases h0 : k₀ = k
      · subst h0
        simp [upsert, alGet, List.find?, Ne.symm h]
      · simp only [upsert, if_neg h0]
        by_cases h1 : k₀ = k'
        · subst h1
          simp [alGet, List.find?]
        · have hskip : ∀ tail : List (K × V),
              alGet k' ((k₀, v₀) :: tail) = alGet k' tail := by
            intro tail
            simp [alGet, List.find?, h1]
          rw [hskip, hskip, alGet_upsert_other k k' h iv f rest]

theorem alGet_mem {K V : Type} [DecidableEq K] (k : K) (m : List (K × V))
    (e : V) (h : alGet k m = some e) : e ∈ m.map Prod.snd := by
  unfold alGet at h
  cases hfind : m.find? (fun p => decide (p.1 = k)) with
  | none => rw [hfind] at h; cases h
  | some p =>
      rw [hfind] at h
      simp only [Option.map_some', Option.some.injEq] at h
      exact h ▸ List.mem_map.mpr ⟨p, List.mem_of_find?_eq_some hfind, rfl⟩

/-- Effect of one tagged item on the five per-station measures. -/
theorem stationItemStep_lookup (bid : String) (it : BillItem)
    (m : List (String × StationAcc)) (s : String) :
    dTripsOf (alGet s (stationItemStep bid m it))
        = dTripsOf (alGet s m) + (if it.fromStation = s then 1 else 0)
      ∧ dKgsOf (alGet s (stationItemStep bid m it))
        = dKgsOf (alGet s m) + (if it.fromStation = s then it.netKgs else 0)
      ∧ dValOf (alGet s (stationItemStep bid m it))
        = dValOf (alGet s m) + (if it.fromStation = s then it.rs else 0)
      ∧ rTripsOf (alGet s (stationItemStep bid m it))
        = rTripsOf (alGet s m) + (if it.toStation = s then 1 else 0)
      ∧ rKgsOf (alGet s (stationItemStep bid m it))
        = rKgsOf (alGet s m) + (if it.toStation = s then it.netKgs else 0) := by
  unfold stationItemStep
  by_cases hf : it.fromStation = s <;> by_cases ht : it.toStation = s
  · subst hf
    rw [ht, alGet_upsert_self, alGet_upsert_self]
    cases halg : alGet it.fromStation m <;>
      simp [halg, dTripsOf, dKgsOf, dValOf, rTripsOf, rKgsOf, stationInit]
  · subst hf
    rw [alGet_upsert_other it.toStation it.fromStation (fun hh => ht hh.symm),
      alGet_upsert_self]
    cases halg : alGet it.fromStation m <;>
      simp [halg, dTripsOf, dKgsOf, dValOf, rTripsOf, rKgsOf, stationInit, ht]
  · subst ht
    rw [alGet_upsert_self,
      alGet_upsert_other it.fromStation it.toStation (fun hh => hf hh.symm)]
    cases halg : alGet it.toStation m <;>
      simp [halg, dTripsOf, dKgsOf, dValOf, rTripsOf, rKgsOf, stationInit, hf]
  · rw [alGet_upsert_other it.toStation s (fun hh => ht hh.symm),
      alGet_upsert_other it.fromStation s (fun hh => hf hh.symm)]
    simp [hf, ht]

/-- Entries of the station map carry their key as `name`. -/
theorem stationItemStep_name (bid : String) (it : BillItem)
    (m : List (String × StationAcc)) (s : String)
    (h : ∀ e, alGet s m = some e → e.name = s) :
    ∀ e, alGet s (stationItemStep bid m it) = some e → e.name = s := by
  unfold stationItemStep
  intro e he
  by_cases hf : it.fromStation = s <;> by_cases ht : it.toStation = s
  · subst hf
    rw [ht, alGet_upsert_self, alGet_upsert_self] at he
    cases halg : alGet it.fromStation m with
    | none =>
        rw [halg] at he
        simp only [Option.getD_none, Option.some.injEq] at he
        subst he
        simp [stationInit]
    | some v =>
        rw [halg] at he
        simp only [Option.getD_some, Option.some.injEq] at he
        subst he
        simpa using h v halg
  · subst hf
    rw [alGet_upsert_other it.toStation it.fromStation (fun hh => ht hh.symm),
      alGet_upsert_self] at he
    cases halg : alGet it.fromStation m with
    | none =>
        rw [halg] at he
        simp only [Option.getD_none, Option.some.injEq] at he
        subst he
        simp [stationInit]
    | some v =>
        rw [halg] at he
        simp only [Option.getD_some, Option.some.injEq] at he
        subst he
        simpa using h v halg
  · subst ht
    rw [alGet_upsert_self,
      alGet_upsert_other it.fromStation it.toStation (fun hh => hf hh.symm)] at he
    cases halg : alGet it.toStation m with
    | none =>
        rw [halg] at he
        simp only [Option.getD_none, Option.some.injEq] at he
        subst he
        simp [stationInit]
    | some v =>
        rw [halg] at he
        simp only [Option.getD_some, Option.some.injEq] at he
        subst he
        simpa using h v halg
  · rw [alGet_upsert_other it.toStation s (fun hh => ht hh.symm),
      alGet_upsert_other it.fromStation s (fun hh => hf hh.symm)] at he
    exact h e he

/-- A station occurring in the processed item creates/keeps an entry. -/
theorem stationItemStep_isSome (bid : String) (it : BillItem)
    (m : List (String × StationAcc)) (s : String)
    (h : it.fromStation = s ∨ it.toStation = s) :
    (alGet s (stationItemStep bid m it)).isSome = true := by
  unfold stationItemStep
  by_cases ht : it.toStation = s
  · rw [ht, alGet_upsert_self]; rfl
  · rcases h with hf | hf
    · subst hf
      rw [alGet_upsert_other it.toStation it.fromStation (fun hh => ht hh.symm),
        alGet_upsert_self]
      rfl
    · exact absurd hf ht

theorem stationPairsFold_lookup :
    ∀ (ps : List (String × BillItem)) (m : List (String × StationAcc)) (s : String),
      dTripsOf (alGet s (ps.foldl stationPairStep m))
          = dTripsOf (alGet s m) + cntFrom ps s
        ∧ dKgsOf (alGet s (ps.foldl stationPairStep m))
          = dKgsOf (alGet s m) + kgsFrom ps s
        ∧ dValOf (alGet s (ps.foldl stationPairStep m))
          = dValOf (alGet s m) + valFrom ps s
        ∧ rTripsOf (alGet s (ps.foldl stationPairStep m))
          = rTripsOf (alGet s m) + cntTo ps s
        ∧ rKgsOf (alGet s (ps.foldl stationPairStep m))
          = rKgsOf (alGet s m) + kgsTo ps s
  | [], m, s => by simp [cntFrom, kgsFrom, valFrom, cntTo, kgsTo]
  | p :: ps, m, s => by
      obtain ⟨h1, h2, h3, h4, h5⟩ :=
        stationPairsFold_lookup ps (stationPairStep m p) s
      obtain ⟨g1, g2, g3, g4, g5⟩ := stationItemStep_lookup p.1 p.2 m s
      refine ⟨?_, ?_, ?_, ?_, ?_⟩ <;>
        simp only [List.foldl_cons, h1, h2, h3, h4, h5, cntFrom, kgsFrom, valFrom,
          cntTo, kgsTo, List.filter_cons]
      · rw [show stationPairStep m p = stationItemStep p.1 m p.2 from rfl, g1]
        by_cases hc : p.2.fromStation = s <;>
          simp [hc, cntFrom] <;> omega
      · rw [show stationPairStep m p = stationItemStep p.1 m p.2 from rfl, g2]
        by_cases hc : p.2.fromStation = s <;> simp [hc, kgsFrom] <;> ring
      · rw [show stationPairStep m p = stationItemStep p.1 m p.2 from rfl, g3]
        by_cases hc : p.2.fromStation = s <;> simp [hc, valFrom] <;> ring
      · rw [show stationPairStep m p = stationItemStep p.1 m p.2 from rfl, g4]
        by_cases hc : p.2.toStation = s <;> simp [hc, cntTo] <;> omega
      · rw [show stationPairStep m p = stationItemStep p.1 m p.2 from rfl, g5]
        by_cases hc : p.2.toStation = s <;> simp [hc, kgsTo] <;> ring

theorem stationPairsFold_name :
    ∀ (ps : List (String × BillItem)) (m : List (String × StationAcc)) (s : String),
      (∀ e, alGet s m = some e → e.name = s) →
      ∀ e, alGet s (ps.foldl stationPairStep m) = some e → e.name = s
  | [], _, _, h => h
  | p :: ps, m, s, h => by
      simp only [List.foldl_cons]
      exact stationPairsFold_name ps (stationPairStep m p) s
        (stationItemStep_name p.1 p.2 m s h)

theorem stationPairs_append :
    ∀ (l₁ l₂ : List SavedBill),
      stationPairs (l₁ ++ l₂) = stationPairs l₁ ++ stationPairs l₂
  | [], _ => rfl
  | b :: bs, l₂ => by
      simp [stationPairs, stationPairs_append bs l₂]

theorem stationFold_eq_pairs :
    ∀ (bills : List SavedBill) (m : List (String × StationAcc)),
      bills.foldl stationBillStep m = (stationPairs bills).foldl stationPairStep m
  | [], _ => rfl
  | b :: bs, m => by
      simp only [List.foldl_cons, stationPairs, List.foldl_append]
      rw [stationFold_eq_pairs bs]
      congr 1
      rw [List.foldl_map]
      rfl

/-- C5, the station duplication law: appending one bill holding a single
item from `A` to `B` (`A ≠ B`) to any processed bill list gives a Station
Summary in which `A`'s entry has `dispatchedTrips` incremented by exactly
1, `dispatchedKgs` by the item's net kg and `dispatchedValue` by its
amount while its received counters are unchanged, and `B`'s entry has
`receivedTrips` incremented by exactly 1 and `receivedKgs` by the item's
net kg while its dispatched counters and value are unchanged
(no cross-contamination).  The prior counter values are the closed-form
per-station measures over the items of the original list. -/
theorem c5_station_duplication (bills : List SavedBill) (b : SavedBill)
    (i : BillItem) (A B : String) (hbi : b.bill_items = [i])
    (hfrom : i.fromStation = A) (hto : i.toStation = B) (hAB : A ≠ B) :
    (∃ eA, eA ∈ stationSummary (bills ++ [b]) ∧ eA.name = A
      ∧ eA.dispatchedTrips = cntFrom (stationPairs bills) A + 1
      ∧ eA.dispatchedKgs = kgsFrom (stationPairs bills) A + i.netKgs
      ∧ eA.dispatchedValue = valFrom (stationPairs bills) A + i.rs
      ∧ eA.receivedTrips = cntTo (stationPairs bills) A
      ∧ eA.receivedKgs = kgsTo (stationPairs bills) A)
    ∧ (∃ eB, eB ∈ stationSummary (bills ++ [b]) ∧ eB.name = B
      ∧ eB.receivedTrips = cntTo (stationPairs bills) B + 1
      ∧ eB.receivedKgs = kgsTo (stationPairs bills) B + i.netKgs
      ∧ eB.dispatchedTrips = cntFrom (stationPairs bills) B
      ∧ eB.dispatchedKgs = kgsFrom (stationPairs bills) B
      ∧ eB.dispatchedValue = valFrom (stationPairs bills) B) := by
  subst hfrom
  subst hto
  have hps : stationPairs (bills ++ [b]) = stationPairs bills ++ [(b.id, i)] := by
    rw [stationPairs_append]
    simp [stationPairs, hbi]
  have hfold : (bills ++ [b]).foldl stationBillStep []
      = stationItemStep b.id ((stationPairs bills).foldl stationPairStep []) i := by
    rw [stationFold_eq_pairs, hps, List.foldl_append]
    rfl
  set M := (stationPairs bills).foldl stationPairStep [] with hM
  have hbaseF := stationPairsFold_lookup (stationPairs bills) [] i.fromStation
  have hbaseT := stationPairsFold_lookup (stationPairs bills) [] i.toStation
  have halnil : ∀ s : String, alGet (V := StationAcc) s [] = none := by
    intro s
    simp [alGet, List.find?]
  rw [halnil] at hbaseF
  rw [halnil] at hbaseT
  obtain ⟨b1, b2, b3, b4, b5⟩ := hbaseF
  obtain ⟨c1, c2, c3, c4, c5⟩ := hbaseT
  simp only [dTripsOf, dKgsOf, dValOf, rTripsOf, rKgsOf, Nat.zero_add,
    zero_add] at b1 b2 b3 b4 b5 c1 c2 c3 c4 c5
  obtain ⟨g1, g2, g3, g4, g5⟩ := stationItemStep_lookup b.id i M i.fromStation
  obtain ⟨k1, k2, k3, k4, k5⟩ := stationItemStep_lookup b.id i M i.toStation
  have hfneq : ¬ i.toStation = i.fromStation := fun hh => hAB hh.symm
  have hsomeA : (alGet i.fromStation (stationItemStep b.id M i)).isSome = true :=
    stationItemStep_isSome b.id i M i.fromStation (Or.inl rfl)
  have hsomeB : (alGet i.toStation (stationItemStep b.id M i)).isSome = true :=
    stationItemStep_isSome b.id i M i.toStation (Or.inr rfl)
  obtain ⟨eA, heA⟩ := Option.isSome_iff_exists.mp hsomeA
  obtain ⟨eB, heB⟩ := Option.isSome_iff_exists.mp hsomeB
  have hpairsfold : (stationPairs (bills ++ [b])).foldl stationPairStep []
      = stationItemStep b.id M i := by
    rw [hps, List.foldl_append]
    rfl
  have hnameA : eA.name = i.fromStation := by
    refine stationPairsFold_name (stationPairs (bills ++ [b])) [] i.fromStation
      ?_ eA ?_
    · intro e he
      rw [halnil] at he
      cases he
    · rw [hpairsfold]
      exact heA
  have hnameB : eB.name = i.toStation := by
    refine stationPairsFold_name (stationPairs (bills ++ [b])) [] i.toStation
      ?_ eB ?_
    · intro e he
      rw [halnil] at he
      cases he
    · rw [hpairsfold]
      exact heB
  have hmemA : eA ∈ stationSummary (bills ++ [b]) := by
    unfold stationSummary
    rw [List.mem_insertionSort, hfold]
    exact alGet_mem _ _ _ heA
  have hmemB : eB ∈ stationSummary (bills ++ [b]) := by
    unfold stationSummary
    rw [List.mem_insertionSort, hfold]
    exact alGet_mem _ _ _ heB
  rw [heA] at g1 g2 g3 g4 g5
  rw [heB] at k1 k2 k3 k4 k5
  simp only [dTripsOf, dKgsOf, dValOf, rTripsOf, rKgsOf, if_pos rfl,
    if_neg hfneq, b1, b2, b3, b4, b5, add_zero] at g1 g2 g3 g4 g5
  have htneq : ¬ i.fromStation = i.toStation := hAB
  simp only [dTripsOf, dKgsOf, dValOf, rTripsOf, rKgsOf, if_pos rfl,
    if_neg htneq, c1, c2, c3, c4, c5, add_zero] at k1 k2 k3 k4 k5
  exact ⟨⟨eA, hmemA, hnameA, g1, g2, g3, g4, g5⟩,
    ⟨eB, hmemB, hnameB, k4, k5, k1, k2, k3⟩⟩

/-- A second item used to give the station-law witness a non-trivial
prior state: from Y to X, so both stations pre-exist. -/
def priorItem : BillItem :=
  { id := "i0", contract_id := none, fromStation := "Y", toStation := "X",
    mode := "Rail", bags := 2, ppBags := 1, juteBags := 1, netKgs := 80,
    bardanaKgs := 3, grossKgs := 83, rate_per_kg := 1, rs := 80 }

/-- The bill wrapping `priorItem`. -/
def priorBill : SavedBill :=
  { id := "b3", bill_number := "B-3", bill_date := "2024-01-10",
    contractor_id := some 1, contractor_name := "Acme", sanctioned_no := "S-3",
    bill_items := [priorItem], deductions :=
      { penalty := 0, income_tax := 0, tajveed_ul_quran := 0, education_cess := 0,
        klc := 0, sd_current := 0, gst_current := 0, others := 0,
        others_description := none },
    grandTotal := 80, totalDeductions := 0, netAmount := 80 }

theorem c5_station_duplication_witness :
    (exportBill.bill_items = [exportItem] ∧ exportItem.fromStation = "X"
        ∧ exportItem.toStation = "Y" ∧ "X" ≠ "Y")
      ∧ ((∃ eA, eA ∈ stationSummary ([priorBill] ++ [exportBill]) ∧ eA.name = "X"
          ∧ eA.dispatchedTrips = cntFrom (stationPairs [priorBill]) "X" + 1
          ∧ eA.dispatchedKgs = kgsFrom (stationPairs [priorBill]) "X" + exportItem.netKgs
          ∧ eA.dispatchedValue = valFrom (stationPairs [priorBill]) "X" + exportItem.rs
          ∧ eA.receivedTrips = cntTo (stationPairs [priorBill]) "X"
          ∧ eA.receivedKgs = kgsTo (stationPairs [priorBill]) "X")
        ∧ (∃ eB, eB ∈ stationSummary ([priorBill] ++ [exportBill]) ∧ eB.name = "Y"
          ∧ eB.receivedTrips = cntTo (stationPairs [priorBill]) "Y" + 1
          ∧ eB.receivedKgs = kgsTo (stationPairs [priorBill]) "Y" + exportItem.netKgs
          ∧ eB.dispatchedTrips = cntFrom (stationPairs [priorBill]) "Y"
          ∧ eB.dispatchedKgs = kgsFrom (stationPairs [priorBill]) "Y"
          ∧ eB.dispatchedValue = valFrom (stationPairs [priorBill]) "Y")) :=
  ⟨⟨rfl, rfl, rfl, by decide⟩,
    c5_station_duplication [priorBill] exportBill exportItem "X" "Y"
      rfl rfl rfl (by decide)⟩

/-! ### Stable sorting commutes with filtering -/

section StableSort

variable {α : Type} (r : α → α → Prop) [DecidableRel r] [IsTotal α r] [IsTrans α r]

theorem orderedInsert_of_forall (x : α) (l : List α) (h : ∀ y ∈ l, r x y) :
    l.orderedInsert r x = x :: l := by
  cases l with
  | nil => rfl
  | cons y ys =>
      simp only [List.orderedInsert]
      rw [if_pos (h y (List.mem_cons_self y ys))]

theorem filter_orderedInsert (p : α → Bool) (x : α) :
    ∀ l : List α, List.Sorted r l →
      (l.orderedInsert r x).filter p
        = if p x then (l.filter p).orderedInsert r x else l.filter p
  | [], _ => by
      cases hp : p x <;> simp [List.orderedInsert, List.filter_cons, hp]
  | y :: ys, hsort => by
      have hy : ∀ z ∈ ys, r y z := (List.sorted_cons.mp hsort).1
      have htail : List.Sorted r ys := (List.sorted_cons.mp hsort).2
      by_cases hr : r x y
      · simp only [List.orderedInsert, if_pos hr]
        cases hp : p x with
        | false => simp [List.filter_cons, hp]
        | true =>
            cases hq : p y with
            | true =>
                simp [List.filter_cons, hp, hq, List.orderedInsert, hr]
            | false =>
                have hall : ∀ z ∈ ys.filter p, r x z := fun z hz =>
                  IsTrans.trans x y z hr (hy z (List.mem_of_mem_filter hz))
                have hoi := orderedInsert_of_forall r x (ys.filter p) hall
                simp [List.filter_cons, hp, hq, hoi]
      · simp only [List.orderedInsert, if_neg hr]
        have ih := filter_orderedInsert p x ys htail
        cases hp : p x with
        | false =>
            cases hq : p y with
            | true => simp [List.filter_cons, hp, hq, ih]
            | false => simp [List.filter_cons, hp, hq, ih]
        | true =>
            cases hq : p y with
            | true =>
                simp [List.filter_cons, hp, hq, ih, List.orderedInsert, hr]
            | false =>
                simp [List.filter_cons, hp, hq, ih]

theorem filter_insertionSort (p : α → Bool) :
    ∀ l : List α, (l.insertionSort r).filter p = (l.filter p).insertionSort r
  | [] => rfl
  | x :: xs => by
      simp only [List.insertionSort]
      rw [filter_orderedInsert r p x (xs.insertionSort r)
        (List.sorted_insertionSort r xs)]
      cases hp : p x with
      | true =>
          simp [List.filter_cons, hp, List.insertionSort, filter_insertionSort p xs]
      | false =>
          simp [List.filter_cons, hp, filter_insertionSort p xs]

theorem insertionSort_idem (l : List α) :
    (l.insertionSort r).insertionSort r = l.insertionSort r :=
  List.Sorted.insertionSort_eq (List.sorted_insertionSort r l)

end StableSort

/-! ### Conjunction of two filter states -/

/-- Combine two contractor selectors when their conjunction is a single
selector: `"all"` is neutral, equal ids combine, distinct ids do not. -/
def combineSel : ContractorSel → ContractorSel → Option ContractorSel
  | .all, c2 => some c2
  | .id n1, .all => some (.id n1)
  | .id n1, .id n2 => if n1 = n2 then some (.id n1) else none

/-- Combine two route selectors. -/
def combineRoute : RouteSel → RouteSel → Option RouteSel
  | .all, r2 => some r2
  | .route r1, .all => some (.route r1)
  | .route r1, .route r2 => if r1 = r2 then some (.route r1) else none

/-- Combine two search queries: empty is neutral, equal queries combine. -/
def combineSearch (q1 q2 : String) : Option String :=
  if q1 = "" then some q2
  else if q2 = "" then some q1
  else if q1 = q2 then some q1 else none

/-- Combine two audit action selectors: `"all"` is neutral. -/
def combineAction (a1 a2 : String) : Option String :=
  if a1 = "all" then some a2
  else if a2 = "all" then some a1
  else if a1 = a2 then some a1 else none

/-- The conjunction of two inclusive start bounds (`""` = unset): the
later of the two. -/
def combineStartVal (s1 s2 : String) : String :=
  if s1 = "" then s2 else if s2 = "" then s1 else max s1 s2

/-- The conjunction of two inclusive end bounds (`""` = unset): the
earlier of the two. -/
def combineEndVal (e1 e2 : String) : String :=
  if e1 = "" then e2 else if e2 = "" then e1 else min e1 e2

/-- `f1 ∧ f2` as a single filter state, when expressible. -/
def combineFilters (f1 f2 : FilterState) : Option FilterState := do
  let cs ← combineSel f1.selectedContractorId f2.selectedContractorId
  let rs ← combineRoute f1.selectedRoute f2.selectedRoute
  let q ← combineSearch f1.searchQuery f2.searchQuery
  let a ← combineAction f1.auditActionFilter f2.auditActionFilter
  pure
    { selectedContractorId := cs
      selectedRoute := rs
      searchQuery := q
      startDate := combineStartVal f1.startDate f2.startDate
      endDate := combineEndVal f1.endDate f2.endDate
      auditActionFilter := a }

theorem contractorMatch_combine (c1 c2 c12 : ContractorSel)
    (h : combineSel c1 c2 = some c12) (bill : SavedBill) :
    contractorMatch c12 bill = (contractorMatch c1 bill && contractorMatch c2 bill) := by
  cases c1 with
  | all =>
      simp only [combineSel, Option.some.injEq] at h
      subst h
      simp [contractorMatch]
  | id n1 =>
      cases c2 with
      | all =>
          simp only [combineSel, Option.some.injEq] at h
          subst h
          simp [contractorMatch]
      | id n2 =>
          by_cases hn : n1 = n2
          · subst hn
            simp [combineSel] at h
            subst h
            simp [contractorMatch]
          · simp [combineSel, hn] at h

theorem routeMatch_combine (contracts : List Contract) (r1 r2 r12 : RouteSel)
    (h : combineRoute r1 r2 = some r12) (bill : SavedBill) :
    routeMatch contracts r12 bill
      = (routeMatch contracts r1 bill && routeMatch contracts r2 bill) := by
  cases r1 with
  | all =>
      simp only [combineRoute, Option.some.injEq] at h
      subst h
      simp [routeMatch]
  | route s1 =>
      cases r2 with
      | all =>
          simp only [combineRoute, Option.some.injEq] at h
          subst h
          simp [routeMatch]
      | route s2 =>
          by_cases hs : s1 = s2
          · subst hs
            simp [combineRoute] at h
            subst h
            simp [routeMatch]
          · simp [combineRoute, hs] at h

theorem searchMatch_combine (q1 q2 q12 : String)
    (h : combineSearch q1 q2 = some q12) (bill : SavedBill) :
    searchMatch q12 bill = (searchMatch q1 bill && searchMatch q2 bill) := by
  unfold combineSearch at h
  by_cases h1 : q1 = ""
  · rw [if_pos h1] at h
    injection h with h
    subst h
    simp [searchMatch, h1]
  · rw [if_neg h1] at h
    by_cases h2 : q2 = ""
    · rw [if_pos h2] at h
      injection h with h
      subst h
      simp [searchMatch, h2]
    · rw [if_neg h2] at h
      by_cases h3 : q1 = q2
      · subst h3
        rw [if_pos rfl] at h
        injection h with h
        subst h
        simp [searchMatch]
      · rw [if_neg h3] at h
        cases h

theorem dateMatch_combine (s1 s2 e1 e2 : String) (bill : SavedBill) :
    dateMatch (combineStartVal s1 s2) (combineEndVal e1 e2) bill
      = (dateMatch s1 e1 bill && dateMatch s2 e2 bill) := by
  have hstart :
      (decide (combineStartVal s1 s2 = "")
          || decide (combineStartVal s1 s2 ≤ bill.bill_date))
        = ((decide (s1 = "") || decide (s1 ≤ bill.bill_date))
            && (decide (s2 = "") || decide (s2 ≤ bill.bill_date))) := by
    unfold combineStartVal
    by_cases h1 : s1 = ""
    · simp [h1]
    · rw [if_neg h1]
      by_cases h2 : s2 = ""
      · simp [h2, h1]
      · rw [if_neg h2]
        have hne : ¬ max s1 s2 = "" := by
          rcases max_choice s1 s2 with hm | hm <;> rw [hm] <;> assumption
        rw [show decide (max s1 s2 = "") = false by simp [hne]]
        rw [show decide (s1 = "") = false by simp [h1]]
        rw [show decide (s2 = "") = false by simp [h2]]
        simp only [Bool.false_or]
        rw [decide_eq_decide.mpr max_le_iff, Bool.decide_and]
  have hend :
      (decide (combineEndVal e1 e2 = "")
          || decide (bill.bill_date ≤ combineEndVal e1 e2))
        = ((decide (e1 = "") || decide (bill.bill_date ≤ e1))
            && (decide (e2 = "") || decide (bill.bill_date ≤ e2))) := by
    unfold combineEndVal
    by_cases h1 : e1 = ""
    · simp [h1]
    · rw [if_neg h1]
      by_cases h2 : e2 = ""
      · simp [h2, h1]
      · rw [if_neg h2]
        have hne : ¬ min e1 e2 = "" := by
          rcases min_choice e1 e2 with hm | hm <;> rw [hm] <;> assumption
        rw [show decide (min e1 e2 = "") = false by simp [hne]]
        rw [show decide (e1 = "") = false by simp [h1]]
        rw [show decide (e2 = "") = false by simp [h2]]
        simp only [Bool.false_or]
        rw [decide_eq_decide.mpr le_min_iff, Bool.decide_and]
  unfold dateMatch
  rw [hstart, hend]
  generalize (decide (s1 = "") || decide (s1 ≤ bill.bill_date)) = x1
  generalize (decide (s2 = "") || decide (s2 ≤ bill.bill_date)) = x2
  generalize (decide (e1 = "") || decide (bill.bill_date ≤ e1)) = y1
  generalize (decide (e2 = "") || decide (bill.bill_date ≤ e2)) = y2
  cases x1 <;> cases x2 <;> cases y1 <;> cases y2 <;> rfl

/-- Pointwise: the combined filter's predicate is the conjunction of the
two original predicates. -/
theorem billPred_combine (contracts : List Contract) (f1 f2 f12 : FilterState)
    (h : combineFilters f1 f2 = some f12) (bill : SavedBill) :
    billPred contracts f12 bill
      = (billPred contracts f1 bill && billPred contracts f2 bill) := by
  unfold combineFilters at h
  cases hcs : combineSel f1.selectedContractorId f2.selectedContractorId with
  | none => rw [hcs] at h; cases h
  | some cs =>
  rw [hcs] at h
  cases hrs : combineRoute f1.selectedRoute f2.selectedRoute with
  | none => rw [hrs] at h; cases h
  | some rs =>
  rw [hrs] at h
  cases hq : combineSearch f1.searchQuery f2.searchQuery with
  | none => rw [hq] at h; cases h
  | some q =>
  rw [hq] at h
  cases ha : combineAction f1.auditActionFilter f2.auditActionFilter with
  | none => rw [ha] at h; cases h
  | some a =>
  rw [ha] at h
  simp at h
  subst h
  unfold billPred
  rw [contractorMatch_combine _ _ _ hcs, routeMatch_combine contracts _ _ _ hrs,
    searchMatch_combine _ _ _ hq, dateMatch_combine]
  generalize contractorMatch f1.selectedContractorId bill = a1
  generalize contractorMatch f2.selectedContractorId bill = a2
  generalize searchMatch f1.searchQuery bill = b1
  generalize searchMatch f2.searchQuery bill = b2
  generalize dateMatch f1.startDate f1.endDate bill = c1
  generalize dateMatch f2.startDate f2.endDate bill = c2
  generalize routeMatch contracts f1.selectedRoute bill = d1
  generalize routeMatch contracts f2.selectedRoute bill = d2
  cases a1 <;> cases a2 <;> cases b1 <;> cases b2 <;> cases c1 <;> cases c2 <;>
    cases d1 <;> cases d2 <;> rfl

/-- C3: filtering twice equals filtering once with the combined state
whenever `f1 ∧ f2` is expressible as a single filter state. -/
theorem c3_filter_and_composition (R : List SavedBill) (contracts : List Contract)
    (f1 f2 f12 : FilterState) (h : combineFilters f1 f2 = some f12) :
    filteredBills (filteredBills R contracts f1) contracts f2
      = filteredBills R contracts f12 := by
  unfold filteredBills
  rw [filter_insertionSort billDateDesc (billPred contracts f2)
    (R.filter (billPred contracts f1))]
  rw [insertionSort_idem billDateDesc]
  rw [List.filter_filter]
  congr 1
  apply List.filter_congr
  intro b _
  rw [billPred_combine contracts f1 f2 f12 h b]
  cases hb1 : billPred contracts f1 b <;> cases hb2 : billPred contracts f2 b <;> rfl

/-- The first filter of the composition witness: start bound only. -/
def filterFrom : FilterState :=
  { selectedContractorId := .all, selectedRoute := .all, searchQuery := "",
    startDate := "2024-01-01", endDate := "", auditActionFilter := "all" }

/-- The second filter of the composition witness: end bound only. -/
def filterTo : FilterState :=
  { selectedContractorId := .all, selectedRoute := .all, searchQuery := "",
    startDate := "", endDate := "2024-02-01", auditActionFilter := "all" }

/-- The combined filter of the composition witness. -/
def filterFromTo : FilterState :=
  { selectedContractorId := .all, selectedRoute := .all, searchQuery := "",
    startDate := "2024-01-01", endDate := "2024-02-01", auditActionFilter := "all" }

theorem c3_filter_and_composition_witness :
    combineFilters filterFrom filterTo = some filterFromTo
      ∧ filteredBills (filteredBills [acmeBill, priorBill] [] filterFrom) [] filterTo
        = filteredBills [acmeBill, priorBill] [] filterFromTo :=
  ⟨by decide,
    c3_filter_and_composition [acmeBill, priorBill] [] filterFrom filterTo
      filterFromTo (by decide)⟩

/-- C9: the bill filter's output contains only input bills, duplicates no
bill, and is ordered by bill date descending (most recent first). -/
theorem c9_filter_output_shape (savedBills : List SavedBill)
    (contracts : List Contract) (f : FilterState) :
    (∀ b ∈ filteredBills savedBills contracts f, b ∈ savedBills)
      ∧ (∀ b, (filteredBills savedBills contracts f).count b ≤ savedBills.count b)
      ∧ List.Pairwise (fun a b => b.bill_date ≤ a.bill_date)
          (filteredBills savedBills contracts f) := by
  refine ⟨?_, ?_, ?_⟩
  · intro b hb
    unfold filteredBills at hb
    rw [List.mem_insertionSort] at hb
    exact (List.mem_filter.mp hb).1
  · intro b
    unfold filteredBills
    rw [(List.perm_insertionSort billDateDesc
      (savedBills.filter (billPred contracts f))).count_eq b]
    exact (List.filter_sublist savedBills).count_le b
  · exact (List.sorted_insertionSort billDateDesc
      (savedBills.filter (billPred contracts f))).imp (fun h => h)

end Fdbms
